import Mathlib

/-!
A shallow embedding of the PFCP session simulation engine of
`internal/pfcpsim/server.go` (package `pfcpsim` of infinitydon/pfcpsim),
together with proofs about its session bookkeeping, rule construction and
error handling.

Modelling conventions:
- Go machine integers are modelled as `Nat`/`Int` with explicit reduction
  modulo `2^16` (for `uint16`) and `2^32` (for `uint32`) exactly where the
  source converts; session keys and request fields (`baseID`, `count`) are
  `Int` (Go `int`).
- The session store of `state.go` (not part of the analysed sources; the spec
  describes it as a key-indexed map with insert/get/delete/size) is a
  `Finset Int` of keys; the opaque protocol-client handle stored under a key
  carries no information the engine ever inspects besides existence, so a key
  set is a faithful model of the observable store state.
- The remote PFCP agent (`sim.EstablishSession` / `ModifySession` /
  `DeleteSession` / `TeardownAssociation`) is an oracle `SimClient` deciding,
  per session key, whether the wire exchange succeeds; every call issued to it
  is recorded in an explicit trace (`ClientCall`), so "what was sent to the
  protocol client" is a statement about the trace.
- Fallible Go paths returning `(resp, error)` become `Except PfcpErr Unit`.
-/

namespace PfcpSim

/-- Direction marker of a PDR (`MarkAsUplink` / `MarkAsDownlink`). -/
inductive Direction
  | uplink
  | downlink
  deriving DecidableEq

/-- Rule method (`session.Create` / `session.Update`). -/
inductive RuleMethod
  | create
  | update
  deriving DecidableEq

/-- FAR destination interface (`ieLib.DstInterfaceCore` / `DstInterfaceAccess`). -/
inductive DstInterface
  | access
  | core
  deriving DecidableEq

/-- Modelled from the spec: the FAR action constants of
`pkg/pfcpsim/session` are not under the analysed sources; the spec describes
the actions forward / buffer / notify-control-plane as combinable flags, so
they are modelled as distinct bits of a byte. -/
def ActionForward : Nat := 2

/-- Modelled from the spec: the buffer action bit (see `ActionForward`). -/
def ActionBuffer : Nat := 4

/-- Modelled from the spec: the notify-control-plane action bit
(see `ActionForward`). -/
def ActionNotify : Nat := 8

/-- The value of a Go `uint16(i)` conversion from `int`. -/
def uint16OfInt (i : Int) : Nat := (i % 65536).toNat

/-- The value of a Go `uint32(i)` conversion from `int`. -/
def uint32OfInt (i : Int) : Nat := (i % 4294967296).toNat

/-- A Packet Detection Rule as assembled through `session.NewPDRBuilder`:
only the fields the engine sets are modelled.  `ueAddress` is the numeric
IPv4 address handed to `WithUEAddress` (the source passes its dotted string
rendering). -/
structure PDR where
  id : Nat
  method : RuleMethod
  direction : Direction
  teid : Option Nat
  farID : Nat
  qerIDs : List Nat
  n3Address : Option String
  ueAddress : Option Nat
  sdfFilter : String
  precedence : Nat
  deriving DecidableEq

/-- A Forwarding Action Rule as assembled through `session.NewFARBuilder`. -/
structure FAR where
  id : Nat
  method : RuleMethod
  action : Nat
  dstInterface : DstInterface
  teid : Option Nat
  downlinkIP : Option String
  deriving DecidableEq

/-- A QoS Enforcement Rule as assembled through `session.NewQERBuilder`. -/
structure QER where
  id : Nat
  method : RuleMethod
  qfi : Option Nat
  uplinkMBR : Nat
  downlinkMBR : Nat
  gateStatus : Option Nat
  deriving DecidableEq

/-- Modelled from the spec: result of `parseAppFilter` (defined outside the
analysed sources), which turns an application filter string into an SDF
filter expression, a gate status and a precedence. -/
structure ParsedFilter where
  sdfFilter : String
  gateStatus : Nat
  precedence : Nat
  deriving DecidableEq

/-- Modelled from the spec: the environment provides `parseAppFilter`, which
either parses an application filter string or rejects it
(`InvalidFilterSyntax` aborts the whole session build). -/
structure Env where
  parseAppFilter : String → Option ParsedFilter

/-- Engine error kinds, one per distinct `status.Error` site of `server.go`. -/
inductive PfcpErr
  | notConfigured
  | notAssociated
  | addressPoolParse
  | tooManyFilters
  | filterParse
  | notEnoughSessions
  | establishFailed
  | modifySessionNotFound
  | modifyFailed
  | deleteSessionNotFound
  | deleteFailed
  | teardownFailed
  deriving DecidableEq

/-- gRPC status class attached to each error site (`codes.Aborted` /
`codes.Internal` in `server.go`). -/
inductive StatusCode
  | aborted
  | internalErr
  deriving DecidableEq

/-- The status code each error is returned with in `server.go`:
establish/modify failures and a missing session during modify are
`codes.Internal`; everything else is `codes.Aborted`. -/
def errCode : PfcpErr → StatusCode
  | .establishFailed => .internalErr
  | .modifySessionNotFound => .internalErr
  | .modifyFailed => .internalErr
  | _ => .aborted

/-- `SessionStep` (server.go line 29): loop step for session keys and rule id
blocks. -/
def SessionStep : Int := 10

/-- The oracle for the external PFCP client (`pkg/pfcpsim`): per session key,
whether each wire exchange succeeds.  Session handles carry no information
the engine inspects, so success keyed by session index is fully general. -/
structure SimClient where
  establishOk : Int → Bool
  modifyOk : Int → Bool
  deleteOk : Int → Bool
  teardownOk : Bool

/-- One call issued to the external PFCP client.  `modifyCall` keeps the
`pdrUpdates`/`qerUpdates` arguments (the source passes `nil` for both). -/
inductive ClientCall
  | establishCall (key : Int) (pdrs : List PDR) (fars : List FAR) (qers : List QER)
  | modifyCall (key : Int) (pdrUpdates : Option (List PDR)) (fars : List FAR)
      (qerUpdates : Option (List QER))
  | deleteCall (key : Int)
  | teardownCall
  | disconnectCall
  deriving DecidableEq

/-- Global server state: configuration/association flags of `state.go`
(modelled from the spec's AssociationGuard: `isConfigured`,
`isRemotePeerConnected`), the configured N3 address, and the key set of
`activeSessions`. -/
structure ServerState where
  configured : Bool
  associated : Bool
  upfN3Address : String
  activeSessions : Finset Int
  deriving DecidableEq

/-- Modelled from the spec: `insertSession` of `state.go` stores a session
handle under its key. -/
def insertSession (store : Finset Int) (key : Int) : Finset Int := insert key store

/-- Modelled from the spec: `getSession` of `state.go`; the handle is opaque,
so it is represented by the key itself. -/
def getSession (store : Finset Int) (key : Int) : Option Int :=
  if key ∈ store then some key else none

/-- Modelled from the spec: `deleteSession` of `state.go` removes a key. -/
def deleteSession (store : Finset Int) (key : Int) : Finset Int := store.erase key

/-- `checkServerStatus` (server.go lines 36-46). -/
def checkServerStatus (s : ServerState) : Except PfcpErr Unit :=
  if !s.configured then .error .notConfigured
  else if !s.associated then .error .notAssociated
  else .ok ()

/-- Modelled from the spec: bound checked by `isNumOfAppFiltersCorrect`
(defined outside the analysed sources); the comment at `SessionStep` sizes
the id space for at most 5 applications. -/
def maxAppFilters : Nat := 5

/-- Modelled from the spec: `isNumOfAppFiltersCorrect` rejects requests whose
number of application filters exceeds the supported maximum
(`TooManyFilters`). -/
def isNumOfAppFiltersCorrect (filters : List String) : Except PfcpErr Unit :=
  if filters.length > maxAppFilters then .error .tooManyFilters else .ok ()

/-- `iplib.NextIP` on an IPv4 address: the numerically next address. -/
def nextIP (ip : Nat) : Nat := (ip + 1) % 4294967296

/- ---------------------------------------------------------------------
IPv4 CIDR parsing, modelling `net.ParseCIDR` restricted to IPv4.
`net.ParseCIDR("a.b.c.d/m")` returns the address `a.b.c.d` AS WRITTEN as its
first result (the network is the separate `*IPNet` result, which the source
discards); `server.go` seeds `lastUEAddr` with that first result.
--------------------------------------------------------------------- -/

/-- Split a character list on a separator (like `strings.Split`). -/
def splitOnChar (c : Char) : List Char → List (List Char)
  | [] => [[]]
  | a :: as =>
    if a = c then [] :: splitOnChar c as
    else
      match splitOnChar c as with
      | [] => [[a]]
      | g :: gs => (a :: g) :: gs

/-- Parse a nonempty all-digit character list as a decimal number. -/
def digitsToNat (cs : List Char) : Option Nat :=
  if cs = [] then none
  else if cs.all Char.isDigit then
    some (cs.foldl (fun acc c => acc * 10 + (c.toNat - 48)) 0)
  else none

/-- Parse one dotted-quad octet (0..255). -/
def parseOctet (cs : List Char) : Option Nat :=
  match digitsToNat cs with
  | none => none
  | some n => if n ≤ 255 then some n else none

/-- Parse a dotted-quad IPv4 address into its 32-bit numeric value. -/
def parseIPv4 (cs : List Char) : Option Nat :=
  match (splitOnChar '.' cs).map parseOctet with
  | [some a, some b, some c, some d] => some (((a * 256 + b) * 256 + c) * 256 + d)
  | _ => none

/-- `net.ParseCIDR` for IPv4: yields the address as written in the string
(NOT masked to the network) and the prefix length. -/
def parseCIDR (s : String) : Option (Nat × Nat) :=
  match splitOnChar '/' s.data with
  | [ipPart, maskPart] =>
    match parseIPv4 ipPart, digitsToNat maskPart with
    | some ip, some m => if m ≤ 32 then some (ip, m) else none
    | _, _ => none
  | _ => none

/-- The network address of a parsed CIDR: the written address with the host
bits cleared (what `(*IPNet).IP` of `net.ParseCIDR`'s second result holds). -/
def networkAddress (ip m : Nat) : Nat := ip - ip % 2 ^ (32 - m)

/- ---------------------------------------------------------------------
Rule construction of CreateSession (server.go lines 150-246).
--------------------------------------------------------------------- -/

/-- The session-level QER (server.go lines 154-162): id 0, created once per
session, MBR 60000 in both directions, no QFI, no gate status. -/
def sessionQER : QER :=
  { id := 0, method := .create, qfi := none, uplinkMBR := 60000,
    downlinkMBR := 60000, gateStatus := none }

/-- The uplink PDR built for one application filter (lines 184-194).
`ID` is the current 16-bit rule id; the uplink FAR reference is
`uint32(ID)`, numerically `ID` itself. -/
def uplinkPDRFor (ID : Nat) (uplinkTEID : Nat) (n3 : String) (f : ParsedFilter) : PDR :=
  { id := ID, method := .create, direction := .uplink, teid := some uplinkTEID,
    farID := ID, qerIDs := [0], n3Address := some n3, ueAddress := none,
    sdfFilter := f.sdfFilter, precedence := f.precedence }

/-- The downlink PDR built for one application filter (lines 196-205); its id
and FAR reference are the 16-bit value `ID + 1`. -/
def downlinkPDRFor (ID : Nat) (ueAddr : Nat) (f : ParsedFilter) : PDR :=
  { id := (ID + 1) % 65536, method := .create, direction := .downlink, teid := none,
    farID := (ID + 1) % 65536, qerIDs := [0], n3Address := none,
    ueAddress := some ueAddr, sdfFilter := f.sdfFilter, precedence := f.precedence }

/-- The uplink FAR built for one application filter (lines 210-215). -/
def uplinkFARFor (ID : Nat) : FAR :=
  { id := ID, method := .create, action := ActionForward, dstInterface := .core,
    teid := none, downlinkIP := none }

/-- The downlink FAR built for one application filter (lines 217-222). -/
def downlinkFARFor (ID : Nat) : FAR :=
  { id := (ID + 1) % 65536, method := .create, action := ActionForward,
    dstInterface := .access, teid := none, downlinkIP := none }

/-- The application-scoped QER built for one direction of one filter (lines
227-243).  The source constructs these two QERs per filter and assigns them
to the blank identifier `_`: they are never appended to the `qers` slice and
never reach the establish call. -/
def appQERFor (ID qfi gateStatus : Nat) : QER :=
  { id := ID, method := .create, qfi := some qfi, uplinkMBR := 50000,
    downlinkMBR := 30000, gateStatus := some gateStatus }

/-- The per-filter loop of CreateSession (lines 167-246): for each filter,
parse it (failure aborts the whole build), append an uplink and a downlink
PDR and an uplink and a downlink FAR, and advance the 16-bit id counter by 2.
The two application QERs also built there are discarded by the source (see
`appQERFor`), so they contribute nothing to the result. -/
def buildFilterRules (env : Env) (uplinkTEID : Nat) (ueAddr : Nat) (n3 : String) :
    Nat → List String → Except PfcpErr (List PDR × List FAR)
  | _, [] => .ok ([], [])
  | ID, f :: fs =>
    match env.parseAppFilter f with
    | none => .error .filterParse
    | some pf =>
      match buildFilterRules env uplinkTEID ueAddr n3 ((ID + 2) % 65536) fs with
      | .error e => .error e
      | .ok (pdrs, fars) =>
        .ok (uplinkPDRFor ID uplinkTEID n3 pf :: downlinkPDRFor ID ueAddr pf :: pdrs,
             uplinkFARFor ID :: downlinkFARFor ID :: fars)

/-- One iteration's rule build (lines 144-246) for the session with key
`key`: uplink TEID `uint32(key)`, id counter seeded with `uint16(key)`, and
the rule set handed to `EstablishSession`: the PDRs and FARs of the filter
loop plus the single session QER. -/
def buildSessionRules (env : Env) (key : Int) (ueAddr : Nat) (n3 : String)
    (filters : List String) : Except PfcpErr (List PDR × List FAR × List QER) :=
  match buildFilterRules env (uint32OfInt key) ueAddr n3 (uint16OfInt key) filters with
  | .error e => .error e
  | .ok (pdrs, fars) => .ok (pdrs, fars, [sessionQER])

/-- The keys visited by the loop
`for i := baseID; i < count*SessionStep+baseID; i += SessionStep`
(server.go lines 143, 295, 356): `baseID + 10*n` for `0 ≤ n < count`
(no iterations when `count ≤ 0`). -/
def sessionKeys (baseID count : Int) : List Int :=
  (List.range count.toNat).map (fun (n : Nat) => baseID + SessionStep * (n : Int))

/-- Result of one service call: the `(resp, error)` outcome, the resulting
global state, and the trace of calls issued to the external PFCP client. -/
structure OpResult where
  result : Except PfcpErr Unit
  state : ServerState
  calls : List ClientCall

/-- The session-establishment loop of CreateSession (lines 143-253): advance
the UE address, build the rule set (a filter parse failure aborts with no
client call), call `EstablishSession`, and on success store the session key
and continue. -/
def createLoop (env : Env) (client : SimClient) (n3 : String) (filters : List String) :
    Nat → Finset Int → List Int → Except PfcpErr Unit × Finset Int × List ClientCall
  | _, store, [] => (.ok (), store, [])
  | lastUEAddr, store, i :: ks =>
    let ueAddress := nextIP lastUEAddr
    match buildSessionRules env i ueAddress n3 filters with
    | .error e => (.error e, store, [])
    | .ok (pdrs, fars, qers) =>
      if client.establishOk i then
        let rest := createLoop env client n3 filters ueAddress (insertSession store i) ks
        (rest.1, rest.2.1, .establishCall i pdrs fars qers :: rest.2.2)
      else
        (.error .establishFailed, store, [.establishCall i pdrs fars qers])

/-- `CreateSession` (server.go lines 118-262): status check, CIDR parse of
the UE address pool (the parsed address as written seeds the UE address
sequence), filter-count check, then the establishment loop.  The `qfi`
request field only feeds the discarded application QERs (see `appQERFor`)
and so does not influence the result. -/
def CreateSession (env : Env) (client : SimClient) (s : ServerState)
    (baseID count : Int) (pool : String) (filters : List String) : OpResult :=
  match checkServerStatus s with
  | .error e => ⟨.error e, s, []⟩
  | .ok _ =>
    match parseCIDR pool with
    | none => ⟨.error .addressPoolParse, s, []⟩
    | some (poolIP, _) =>
      match isNumOfAppFiltersCorrect filters with
      | .error e => ⟨.error e, s, []⟩
      | .ok _ =>
        let r := createLoop env client s.upfN3Address filters poolIP
          s.activeSessions (sessionKeys baseID count)
        ⟨r.1, { s with activeSessions := r.2.1 }, r.2.2⟩

/-- The 32-bit rule-id counter seed of the ModifySession loop
(server.go line 298): `uint32(i + 1)`. -/
def modifyStartID (i : Int) : Nat := uint32OfInt (i + 1)

/-- The downlink FARs rebuilt by one ModifySession iteration (lines 305-318):
one update-FAR per application filter, dst interface access, carrying the
requested action set, the TEID and the new downlink node address; the 32-bit
id counter advances by 2 per filter. -/
def buildModifyFARs (actions teid : Nat) (nodeB : String) :
    Nat → List String → List FAR
  | _, [] => []
  | ID, _ :: fs =>
    { id := ID, method := .update, action := actions, dstInterface := .access,
      teid := some teid, downlinkIP := some nodeB } ::
      buildModifyFARs actions teid nodeB ((ID + 2) % 4294967296) fs

/-- The per-session loop of ModifySession (lines 295-331): build the update
FARs, look the session up (a missing key aborts with no client call), then
call `ModifySession(sess, nil, newFARs, nil)` on the client — the PDR and QER
update arguments are always `nil`.  The store is never written. -/
def modifyLoop (client : SimClient) (actions : Nat) (buffering : Bool)
    (nodeB : String) (filters : List String) (store : Finset Int) :
    List Int → Except PfcpErr Unit × List ClientCall
  | [] => (.ok (), [])
  | i :: ks =>
    let teid := if buffering then 0 else uint32OfInt (i + 1)
    let newFARs := buildModifyFARs actions teid nodeB (modifyStartID i) filters
    match getSession store i with
    | none => (.error .modifySessionNotFound, [])
    | some _ =>
      if client.modifyOk i then
        let rest := modifyLoop client actions buffering nodeB filters store ks
        (rest.1, .modifyCall i none newFARs none :: rest.2)
      else
        (.error .modifyFailed, [.modifyCall i none newFARs none])

/-- `ModifySession` (server.go lines 264-340): status check, the
`len(activeSessions) < count` precondition, action derivation (if either the
buffer flag or the notify-CP flag is set, both Buffer and Notify are combined
and the TEID is forced to 0; otherwise Forward), filter-count check, then the
per-session loop. -/
def ModifySession (client : SimClient) (s : ServerState) (baseID count : Int)
    (nodeB : String) (bufferFlag notifyCPFlag : Bool) (filters : List String) :
    OpResult :=
  match checkServerStatus s with
  | .error e => ⟨.error e, s, []⟩
  | .ok _ =>
    if (s.activeSessions.card : Int) < count then
      ⟨.error .notEnoughSessions, s, []⟩
    else
      let actions : Nat :=
        if bufferFlag || notifyCPFlag then ActionNotify ||| ActionBuffer
        else ActionForward
      match isNumOfAppFiltersCorrect filters with
      | .error e => ⟨.error e, s, []⟩
      | .ok _ =>
        let r := modifyLoop client actions (bufferFlag || notifyCPFlag) nodeB
          filters s.activeSessions (sessionKeys baseID count)
        ⟨r.1, s, r.2⟩

/-- The per-session loop of DeleteSession (lines 356-371): look the session
up (a missing key aborts), call `DeleteSession` on the client, and only on
success remove the key from the store and continue. -/
def deleteLoop (client : SimClient) :
    Finset Int → List Int → Except PfcpErr Unit × Finset Int × List ClientCall
  | store, [] => (.ok (), store, [])
  | store, i :: ks =>
    match getSession store i with
    | none => (.error .deleteSessionNotFound, store, [])
    | some _ =>
      if client.deleteOk i then
        let rest := deleteLoop client (deleteSession store i) ks
        (rest.1, rest.2.1, .deleteCall i :: rest.2.2)
      else
        (.error .deleteFailed, store, [.deleteCall i])

/-- `DeleteSession` (server.go lines 342-380): status check, the
`len(activeSessions) < count` precondition, then the per-session loop. -/
def DeleteSession (client : SimClient) (s : ServerState) (baseID count : Int) :
    OpResult :=
  match checkServerStatus s with
  | .error e => ⟨.error e, s, []⟩
  | .ok _ =>
    if (s.activeSessions.card : Int) < count then
      ⟨.error .notEnoughSessions, s, []⟩
    else
      let r := deleteLoop client s.activeSessions (sessionKeys baseID count)
      ⟨r.1, { s with activeSessions := r.2.1 }, r.2.2⟩

/-- `Disassociate` (server.go lines 95-116): status check, association
teardown on the client (failure aborts), transport disconnect, then the
associated flag is cleared. -/
def Disassociate (client : SimClient) (s : ServerState) : OpResult :=
  match checkServerStatus s with
  | .error e => ⟨.error e, s, []⟩
  | .ok _ =>
    if client.teardownOk then
      ⟨.ok (), { s with associated := false }, [.teardownCall, .disconnectCall]⟩
    else
      ⟨.error .teardownFailed, s, [.teardownCall]⟩

/- ---------------------------------------------------------------------
Derived descriptions of the traces the loops produce, used to state the
theorems.  `filterPDRs`/`filterFARs` describe the output of
`buildFilterRules` once every filter parses.
--------------------------------------------------------------------- -/

/-- The PDR list `buildFilterRules` produces from already-parsed filters. -/
def filterPDRs (uplinkTEID ueAddr : Nat) (n3 : String) :
    Nat → List ParsedFilter → List PDR
  | _, [] => []
  | ID, pf :: pfs =>
    uplinkPDRFor ID uplinkTEID n3 pf :: downlinkPDRFor ID ueAddr pf ::
      filterPDRs uplinkTEID ueAddr n3 ((ID + 2) % 65536) pfs

/-- The FAR list `buildFilterRules` produces from already-parsed filters. -/
def filterFARs : Nat → List ParsedFilter → List FAR
  | _, [] => []
  | ID, _ :: pfs => uplinkFARFor ID :: downlinkFARFor ID :: filterFARs ((ID + 2) % 65536) pfs

/-- The PDRs of the session with key `key` (id counter seeded with
`uint16(key)`, uplink TEID `uint32(key)`). -/
def sessPDRs (env : Env) (key : Int) (ueAddr : Nat) (n3 : String)
    (filters : List String) : List PDR :=
  filterPDRs (uint32OfInt key) ueAddr n3 (uint16OfInt key)
    (filters.filterMap env.parseAppFilter)

/-- The FARs of the session with key `key`. -/
def sessFARs (env : Env) (key : Int) (filters : List String) : List FAR :=
  filterFARs (uint16OfInt key) (filters.filterMap env.parseAppFilter)

/-- The trace of establish calls a fully successful create loop issues,
threading the UE address like the source does. -/
def createTrace (env : Env) (n3 : String) (filters : List String) :
    Nat → List Int → List ClientCall
  | _, [] => []
  | ue, i :: ks =>
    .establishCall i (sessPDRs env i (nextIP ue) n3 filters)
        (sessFARs env i filters) [sessionQER] ::
      createTrace env n3 filters (nextIP ue) ks

/-- The TEID the ModifySession loop stamps on its rebuilt FARs for session
key `i` (server.go lines 299-303). -/
def modifyTEID (buffering : Bool) (i : Int) : Nat :=
  if buffering then 0 else uint32OfInt (i + 1)

/-- The single modify call issued for session key `i`. -/
def modifyCallFor (actions : Nat) (buffering : Bool) (nodeB : String)
    (filters : List String) (i : Int) : ClientCall :=
  .modifyCall i none
    (buildModifyFARs actions (modifyTEID buffering i) nodeB (modifyStartID i) filters) none

/-- The trace of modify calls a fully successful modify loop issues. -/
def modifyTrace (actions : Nat) (buffering : Bool) (nodeB : String)
    (filters : List String) (ks : List Int) : List ClientCall :=
  ks.map (modifyCallFor actions buffering nodeB filters)

/-- Advancing an IPv4 address `n` times with `nextIP`. -/
def ipAfter : Nat → Nat → Nat
  | ue, 0 => ue
  | ue, n + 1 => ipAfter (nextIP ue) n

/- Projections on client calls, used to state concrete counterexamples. -/

/-- The rule-id list of the FARs carried by a call. -/
def callFARIDs : ClientCall → List Nat
  | .establishCall _ _ fars _ => fars.map FAR.id
  | .modifyCall _ _ fars _ => fars.map FAR.id
  | _ => []

/-- The rule-id list of the PDRs carried by an establish call. -/
def callPDRIDs : ClientCall → List Nat
  | .establishCall _ pdrs _ _ => pdrs.map PDR.id
  | _ => []

/-- The TEID fields of the PDRs carried by an establish call. -/
def callPDRTEIDs : ClientCall → List (Option Nat)
  | .establishCall _ pdrs _ _ => pdrs.map PDR.teid
  | _ => []

/-- The UE-address fields of the PDRs carried by an establish call. -/
def callPDRUEAddrs : ClientCall → List (Option Nat)
  | .establishCall _ pdrs _ _ => pdrs.map PDR.ueAddress
  | _ => []

/-- The number of QERs carried by an establish call. -/
def callQERCount : ClientCall → Nat
  | .establishCall _ _ _ qers => qers.length
  | _ => 0

/-- Whether a modify call passes `nil` for both its PDR-update and
QER-update arguments. -/
def modifyUpdatesNil : ClientCall → Bool
  | .modifyCall _ p _ q => p.isNone && q.isNone
  | _ => false

/- Concrete instances used by witnesses and counterexamples. -/

/-- An environment whose filter parser accepts everything (gate 1,
precedence 100). -/
def defaultEnv : Env := ⟨fun f => some ⟨f, 1, 100⟩⟩

/-- A client for which every wire exchange succeeds. -/
def allOkClient : SimClient := ⟨fun _ => true, fun _ => true, fun _ => true, true⟩

/-- A client for which every wire exchange on session key `k` fails and all
others succeed. -/
def failAllAt (k : Int) : SimClient :=
  ⟨fun i => decide (i ≠ k), fun i => decide (i ≠ k), fun i => decide (i ≠ k), true⟩

/-- A configured and associated server with no active sessions. -/
def readyState : ServerState := ⟨true, true, "10.0.0.2", ∅⟩

/-- A configured and associated server tracking the single session key 1. -/
def oneSessState : ServerState := ⟨true, true, "10.0.0.2", {1}⟩

/-- A configured and associated server tracking session keys 1 and 11. -/
def twoSessState : ServerState := ⟨true, true, "10.0.0.2", {1, 11}⟩

/- ---------------------------------------------------------------------
Lemmas about the per-filter rule build.
--------------------------------------------------------------------- -/

theorem buildFilterRules_eq (env : Env) (teid ue : Nat) (n3 : String) :
    ∀ (fs : List String) (ID : Nat),
      (∀ f ∈ fs, (env.parseAppFilter f).isSome) →
      buildFilterRules env teid ue n3 ID fs =
        .ok (filterPDRs teid ue n3 ID (fs.filterMap env.parseAppFilter),
             filterFARs ID (fs.filterMap env.parseAppFilter)) := by
  intro fs
  induction fs with
  | nil => intro ID _; rfl
  | cons f fs ih =>
    intro ID h
    obtain ⟨pf, hpf⟩ := Option.isSome_iff_exists.mp (h f (by simp))
    have hrest : ∀ g ∈ fs, (env.parseAppFilter g).isSome := fun g hg => h g (by simp [hg])
    simp [buildFilterRules, hpf, ih ((ID + 2) % 65536) hrest, List.filterMap_cons,
      filterPDRs, filterFARs]

theorem filterPDRs_length (teid ue : Nat) (n3 : String) :
    ∀ (pfs : List ParsedFilter) (ID : Nat),
      (filterPDRs teid ue n3 ID pfs).length = 2 * pfs.length := by
  intro pfs
  induction pfs with
  | nil => intro ID; rfl
  | cons pf pfs ih => intro ID; simp [filterPDRs, ih]; ring

theorem filterFARs_length :
    ∀ (pfs : List ParsedFilter) (ID : Nat),
      (filterFARs ID pfs).length = 2 * pfs.length := by
  intro pfs
  induction pfs with
  | nil => intro ID; rfl
  | cons pf pfs ih => intro ID; simp [filterFARs, ih]; ring

theorem filterPDRs_farID_closed (teid ue : Nat) (n3 : String) :
    ∀ (pfs : List ParsedFilter) (ID : Nat),
      ∀ p ∈ filterPDRs teid ue n3 ID pfs,
        ∃ far ∈ filterFARs ID pfs, far.id = p.farID := by
  intro pfs
  induction pfs with
  | nil => intro ID p hp; simp [filterPDRs] at hp
  | cons pf pfs ih =>
    intro ID p hp
    simp only [filterPDRs, List.mem_cons] at hp
    rcases hp with rfl | rfl | hp
    · exact ⟨uplinkFARFor ID, by simp [filterFARs], rfl⟩
    · exact ⟨downlinkFARFor ID, by simp [filterFARs], rfl⟩
    · obtain ⟨far, hfar, hid⟩ := ih ((ID + 2) % 65536) p hp
      exact ⟨far, by simp [filterFARs, hfar], hid⟩

theorem filterPDRs_uplink_teid (teid ue : Nat) (n3 : String) :
    ∀ (pfs : List ParsedFilter) (ID : Nat),
      ∀ p ∈ filterPDRs teid ue n3 ID pfs,
        p.direction = .uplink → p.teid = some teid := by
  intro pfs
  induction pfs with
  | nil => intro ID p hp; simp [filterPDRs] at hp
  | cons pf pfs ih =>
    intro ID p hp
    simp only [filterPDRs, List.mem_cons] at hp
    rcases hp with rfl | rfl | hp
    · intro _; rfl
    · intro hdir; simp [downlinkPDRFor] at hdir
    · exact ih ((ID + 2) % 65536) p hp

theorem filterPDRs_downlink_ueAddr (teid ue : Nat) (n3 : String) :
    ∀ (pfs : List ParsedFilter) (ID : Nat),
      ∀ p ∈ filterPDRs teid ue n3 ID pfs,
        p.direction = .downlink → p.ueAddress = some ue := by
  intro pfs
  induction pfs with
  | nil => intro ID p hp; simp [filterPDRs] at hp
  | cons pf pfs ih =>
    intro ID p hp
    simp only [filterPDRs, List.mem_cons] at hp
    rcases hp with rfl | rfl | hp
    · intro hdir; simp [uplinkPDRFor] at hdir
    · intro _; rfl
    · exact ih ((ID + 2) % 65536) p hp

theorem filterPDRs_head (teid ue : Nat) (n3 : String) (pf : ParsedFilter)
    (pfs : List ParsedFilter) (ID : Nat) :
    (filterPDRs teid ue n3 ID (pf :: pfs)).head? = some (uplinkPDRFor ID teid n3 pf) := rfl

theorem buildSessionRules_eq (env : Env) (key : Int) (ueAddr : Nat) (n3 : String)
    (filters : List String)
    (hparse : ∀ f ∈ filters, (env.parseAppFilter f).isSome) :
    buildSessionRules env key ueAddr n3 filters =
      .ok (sessPDRs env key ueAddr n3 filters, sessFARs env key filters, [sessionQER]) := by
  simp [buildSessionRules, buildFilterRules_eq env _ _ _ filters _ hparse, sessPDRs, sessFARs]

/- ---------------------------------------------------------------------
Lemmas about the create loop.
--------------------------------------------------------------------- -/

theorem createLoop_ok_store (env : Env) (client : SimClient) (n3 : String)
    (filters : List String) :
    ∀ (ks : List Int) (ue : Nat) (store : Finset Int),
      (createLoop env client n3 filters ue store ks).1 = .ok () →
      (createLoop env client n3 filters ue store ks).2.1 = store ∪ ks.toFinset := by
  intro ks
  induction ks with
  | nil => intro ue store _; simp [createLoop]
  | cons i ks ih =>
    intro ue store h
    simp only [createLoop] at h ⊢
    cases hb : buildSessionRules env i (nextIP ue) n3 filters with
    | error e => simp [hb] at h
    | ok out =>
      obtain ⟨pdrs, fars, qers⟩ := out
      by_cases hc : client.establishOk i = true
      · simp only [hb, hc, if_true] at h ⊢
        rw [ih (nextIP ue) (insertSession store i) h]
        simp [insertSession, Finset.insert_union]
      · simp [hb, hc] at h

theorem createLoop_ok_trace (env : Env) (client : SimClient) (n3 : String)
    (filters : List String)
    (hparse : ∀ f ∈ filters, (env.parseAppFilter f).isSome) :
    ∀ (ks : List Int) (ue : Nat) (store : Finset Int),
      (createLoop env client n3 filters ue store ks).1 = .ok () →
      (createLoop env client n3 filters ue store ks).2.2 =
        createTrace env n3 filters ue ks := by
  intro ks
  induction ks with
  | nil => intro ue store _; rfl
  | cons i ks ih =>
    intro ue store h
    have hb := buildSessionRules_eq env i (nextIP ue) n3 filters hparse
    simp only [createLoop, hb] at h ⊢
    by_cases hc : client.establishOk i = true
    · simp only [hc, if_true] at h ⊢
      rw [ih (nextIP ue) (insertSession store i) h]
      rfl
    · simp [hc] at h

theorem createLoop_calls_shape (env : Env) (client : SimClient) (n3 : String)
    (filters : List String)
    (hparse : ∀ f ∈ filters, (env.parseAppFilter f).isSome) :
    ∀ (ks : List Int) (ue : Nat) (store : Finset Int),
      ∀ c ∈ (createLoop env client n3 filters ue store ks).2.2,
        ∃ key ue2, c = .establishCall key (sessPDRs env key ue2 n3 filters)
          (sessFARs env key filters) [sessionQER] := by
  intro ks
  induction ks with
  | nil => intro ue store c hc; simp [createLoop] at hc
  | cons i ks ih =>
    intro ue store c hc
    have hb := buildSessionRules_eq env i (nextIP ue) n3 filters hparse
    simp only [createLoop, hb] at hc
    by_cases hok : client.establishOk i = true
    · simp only [hok, if_true, List.mem_cons] at hc
      rcases hc with rfl | hc
      · exact ⟨i, nextIP ue, rfl⟩
      · exact ih (nextIP ue) (insertSession store i) c hc
    · simp only [hok] at hc
      simp at hc
      exact ⟨i, nextIP ue, by simp [hc]⟩

theorem ipAfter_one (ue : Nat) : ipAfter ue 1 = nextIP ue := rfl

theorem ipAfter_succ (ue : Nat) (n : Nat) : ipAfter ue (n + 1) = ipAfter (nextIP ue) n := rfl

theorem createLoop_split (env : Env) (client : SimClient) (n3 : String)
    (filters : List String)
    (hparse : ∀ f ∈ filters, (env.parseAppFilter f).isSome) :
    ∀ (pre : List Int) (k : Int) (post : List Int) (ue : Nat) (store : Finset Int),
      (∀ j ∈ pre, client.establishOk j = true) →
      client.establishOk k = false →
      createLoop env client n3 filters ue store (pre ++ k :: post) =
        (.error .establishFailed, store ∪ pre.toFinset,
         createTrace env n3 filters ue pre ++
           [.establishCall k (sessPDRs env k (ipAfter ue (pre.length + 1)) n3 filters)
              (sessFARs env k filters) [sessionQER]]) := by
  intro pre
  induction pre with
  | nil =>
    intro k post ue store _ hk
    have hb := buildSessionRules_eq env k (nextIP ue) n3 filters hparse
    simp only [List.nil_append, createLoop, hb, hk, Bool.false_eq_true, if_false]
    simp [createTrace, ipAfter_one]
  | cons j pre ih =>
    intro k post ue store hpre hk
    have hb := buildSessionRules_eq env j (nextIP ue) n3 filters hparse
    have hj : client.establishOk j = true := hpre j (by simp)
    have hrest : ∀ x ∈ pre, client.establishOk x = true := fun x hx => hpre x (by simp [hx])
    have ih' := ih k post (nextIP ue) (insertSession store j) hrest hk
    simp only [List.cons_append, createLoop, hb, hj, if_true, List.append_eq, ih']
    simp [createTrace, insertSession, Finset.insert_union, ipAfter_succ, List.length_cons]

/- ---------------------------------------------------------------------
Lemmas about the modify and delete loops.
--------------------------------------------------------------------- -/

theorem modifyLoop_ok_trace (client : SimClient) (actions : Nat) (buffering : Bool)
    (nodeB : String) (filters : List String) (store : Finset Int) :
    ∀ (ks : List Int),
      (∀ k ∈ ks, k ∈ store ∧ client.modifyOk k = true) →
      modifyLoop client actions buffering nodeB filters store ks =
        (.ok (), modifyTrace actions buffering nodeB filters ks) := by
  intro ks
  induction ks with
  | nil => intro _; rfl
  | cons i ks ih =>
    intro h
    obtain ⟨hi, hoki⟩ := h i (by simp)
    have hrest : ∀ k ∈ ks, k ∈ store ∧ client.modifyOk k = true :=
      fun k hk => h k (by simp [hk])
    simp only [modifyLoop, getSession, hi, if_true, hoki, ih hrest]
    rfl

theorem modifyLoop_calls_shape (client : SimClient) (actions : Nat) (buffering : Bool)
    (nodeB : String) (filters : List String) (store : Finset Int) :
    ∀ (ks : List Int),
      ∀ c ∈ (modifyLoop client actions buffering nodeB filters store ks).2,
        ∃ i, c = modifyCallFor actions buffering nodeB filters i := by
  intro ks
  induction ks with
  | nil => intro c hc; simp [modifyLoop] at hc
  | cons i ks ih =>
    intro c hc
    simp only [modifyLoop] at hc
    cases hg : getSession store i with
    | none => simp [hg] at hc
    | some v =>
      simp only [hg] at hc
      by_cases hok : client.modifyOk i = true
      · simp only [hok, if_true, List.mem_cons] at hc
        rcases hc with rfl | hc
        · exact ⟨i, rfl⟩
        · exact ih c hc
      · simp only [hok] at hc
        simp at hc
        exact ⟨i, by simp [hc, modifyCallFor, modifyTEID]⟩

theorem modifyLoop_split (client : SimClient) (actions : Nat) (buffering : Bool)
    (nodeB : String) (filters : List String) (store : Finset Int) :
    ∀ (pre : List Int) (k : Int) (post : List Int),
      (∀ j ∈ pre, j ∈ store ∧ client.modifyOk j = true) →
      (k ∉ store ∨ client.modifyOk k = false) →
      ∃ e, modifyLoop client actions buffering nodeB filters store (pre ++ k :: post) =
        (.error e,
          if k ∈ store then
            modifyTrace actions buffering nodeB filters (pre ++ [k])
          else modifyTrace actions buffering nodeB filters pre) := by
  intro pre
  induction pre with
  | nil =>
    intro k post _ hfail
    by_cases hk : k ∈ store
    · have hok : client.modifyOk k = false := by
        rcases hfail with h | h
        · exact absurd hk h
        · exact h
      refine ⟨.modifyFailed, ?_⟩
      simp only [List.nil_append, modifyLoop, getSession, hk, if_true, hok,
        Bool.false_eq_true, if_false]
      simp [modifyTrace, modifyCallFor, modifyTEID]
    · refine ⟨.modifySessionNotFound, ?_⟩
      simp only [List.nil_append, modifyLoop, getSession, hk, if_false]
      simp [hk, modifyTrace]
  | cons j pre ih =>
    intro k post hpre hfail
    obtain ⟨hj, hokj⟩ := hpre j (by simp)
    have hrest : ∀ x ∈ pre, x ∈ store ∧ client.modifyOk x = true :=
      fun x hx => hpre x (by simp [hx])
    obtain ⟨e, he⟩ := ih k post hrest hfail
    refine ⟨e, ?_⟩
    simp only [List.cons_append, modifyLoop, getSession, hj, if_true, hokj, List.append_eq, he]
    by_cases hk : k ∈ store <;>
      simp [hk, modifyTrace, modifyCallFor, modifyTEID]

theorem erase_sdiff_eq (s : Finset Int) (a : Int) (t : Finset Int) :
    (s.erase a) \ t = s \ insert a t := by
  ext x
  simp only [Finset.mem_sdiff, Finset.mem_erase, Finset.mem_insert]
  tauto

theorem deleteLoop_ok (client : SimClient) :
    ∀ (ks : List Int) (store : Finset Int),
      (deleteLoop client store ks).1 = .ok () →
      (deleteLoop client store ks).2.1 = store \ ks.toFinset ∧
        (deleteLoop client store ks).2.2 = ks.map .deleteCall := by
  intro ks
  induction ks with
  | nil => intro store _; simp [deleteLoop]
  | cons i ks ih =>
    intro store h
    simp only [deleteLoop] at h ⊢
    cases hg : getSession store i with
    | none => simp [hg] at h
    | some v =>
      have hi : i ∈ store := by
        by_contra hmem
        simp [getSession, hmem] at hg
      by_cases hok : client.deleteOk i = true
      · simp only [hg, hok, if_true] at h ⊢
        obtain ⟨h1, h2⟩ := ih (deleteSession store i) h
        refine ⟨?_, by simp [h2]⟩
        rw [h1]
        simp [deleteSession, erase_sdiff_eq]
      · simp [hg, hok] at h

theorem deleteLoop_split (client : SimClient) :
    ∀ (pre : List Int) (k : Int) (post : List Int) (store : Finset Int),
      pre.Nodup → k ∉ pre →
      (∀ j ∈ pre, j ∈ store ∧ client.deleteOk j = true) →
      (k ∉ store ∨ client.deleteOk k = false) →
      ∃ e, deleteLoop client store (pre ++ k :: post) =
        (.error e, store \ pre.toFinset,
          if k ∈ store then (pre ++ [k]).map .deleteCall else pre.map .deleteCall) := by
  intro pre
  induction pre with
  | nil =>
    intro k post store _ _ _ hfail
    by_cases hk : k ∈ store
    · have hok : client.deleteOk k = false := by
        rcases hfail with h | h
        · exact absurd hk h
        · exact h
      refine ⟨.deleteFailed, ?_⟩
      simp only [List.nil_append, deleteLoop, getSession, hk, if_true, hok,
        Bool.false_eq_true, if_false]
      simp [hk]
    · refine ⟨.deleteSessionNotFound, ?_⟩
      simp only [List.nil_append, deleteLoop, getSession, hk, if_false]
      simp [hk]
  | cons j pre ih =>
    intro k post store hnd hkp hpre hfail
    obtain ⟨hj, hokj⟩ := hpre j (by simp)
    have hjpre : j ∉ pre := by simp at hnd; exact hnd.1
    have hnd' : pre.Nodup := by simp at hnd; exact hnd.2
    have hkp' : k ∉ pre := fun h => hkp (by simp [h])
    have hkj : k ≠ j := fun h => hkp (by simp [h])
    have hrest : ∀ x ∈ pre, x ∈ deleteSession store j ∧ client.deleteOk x = true := by
      intro x hx
      obtain ⟨hxs, hxok⟩ := hpre x (by simp [hx])
      have hxj : x ≠ j := fun h => hjpre (h ▸ hx)
      exact ⟨by simp [deleteSession, Finset.mem_erase, hxj, hxs], hxok⟩
    have hfail' : k ∉ deleteSession store j ∨ client.deleteOk k = false := by
      rcases hfail with h | h
      · exact Or.inl (fun hmem => h (Finset.mem_of_mem_erase hmem))
      · exact Or.inr h
    obtain ⟨e, he⟩ := ih k post (deleteSession store j) hnd' hkp' hrest hfail'
    refine ⟨e, ?_⟩
    simp only [List.cons_append, deleteLoop, getSession, hj, if_true, hokj, List.append_eq, he]
    have hkmem : k ∈ deleteSession store j ↔ k ∈ store := by
      simp [deleteSession, Finset.mem_erase, hkj]
    by_cases hk : k ∈ store
    · simp [hkmem, hk, deleteSession, erase_sdiff_eq, hkj]
    · simp [hkmem, hk, deleteSession, erase_sdiff_eq, hkj]

/- ---------------------------------------------------------------------
Inversion lemmas for the service operations.
--------------------------------------------------------------------- -/

theorem CreateSession_ok_inv (env : Env) (client : SimClient) (s : ServerState)
    (baseID count : Int) (pool : String) (filters : List String)
    (h : (CreateSession env client s baseID count pool filters).result = .ok ()) :
    checkServerStatus s = .ok () ∧
    (∃ poolIP m, parseCIDR pool = some (poolIP, m)) ∧
    (CreateSession env client s baseID count pool filters).state.activeSessions =
      s.activeSessions ∪ (sessionKeys baseID count).toFinset := by
  cases hcs : checkServerStatus s with
  | error e => simp [CreateSession, hcs] at h
  | ok u =>
    cases u
    cases hp : parseCIDR pool with
    | none => simp [CreateSession, hcs, hp] at h
    | some pm =>
      obtain ⟨poolIP, m⟩ := pm
      cases hfc : isNumOfAppFiltersCorrect filters with
      | error e => simp [CreateSession, hcs, hp, hfc] at h
      | ok u2 =>
        cases u2
        refine ⟨rfl, ⟨poolIP, m, rfl⟩, ?_⟩
        simp only [CreateSession, hcs, hp, hfc] at h ⊢
        exact createLoop_ok_store env client s.upfN3Address filters _ _ _ h

theorem CreateSession_ok_trace (env : Env) (client : SimClient) (s : ServerState)
    (baseID count : Int) (pool : String) (filters : List String) (poolIP m : Nat)
    (hp : parseCIDR pool = some (poolIP, m))
    (hparse : ∀ f ∈ filters, (env.parseAppFilter f).isSome)
    (h : (CreateSession env client s baseID count pool filters).result = .ok ()) :
    (CreateSession env client s baseID count pool filters).calls =
      createTrace env s.upfN3Address filters poolIP (sessionKeys baseID count) := by
  cases hcs : checkServerStatus s with
  | error e => simp [CreateSession, hcs] at h
  | ok u =>
    cases u
    cases hfc : isNumOfAppFiltersCorrect filters with
    | error e => simp [CreateSession, hcs, hp, hfc] at h
    | ok u2 =>
      cases u2
      simp only [CreateSession, hcs, hp, hfc] at h ⊢
      exact createLoop_ok_trace env client s.upfN3Address filters hparse _ _ _ h

theorem CreateSession_calls_shape (env : Env) (client : SimClient) (s : ServerState)
    (baseID count : Int) (pool : String) (filters : List String)
    (hparse : ∀ f ∈ filters, (env.parseAppFilter f).isSome) :
    ∀ c ∈ (CreateSession env client s baseID count pool filters).calls,
      ∃ key ue2, c = .establishCall key (sessPDRs env key ue2 s.upfN3Address filters)
        (sessFARs env key filters) [sessionQER] := by
  intro c hc
  cases hcs : checkServerStatus s with
  | error e => simp [CreateSession, hcs] at hc
  | ok u =>
    cases u
    cases hp : parseCIDR pool with
    | none => simp [CreateSession, hcs, hp] at hc
    | some pm =>
      obtain ⟨poolIP, m⟩ := pm
      cases hfc : isNumOfAppFiltersCorrect filters with
      | error e => simp [CreateSession, hcs, hp, hfc] at hc
      | ok u2 =>
        cases u2
        simp only [CreateSession, hcs, hp, hfc] at hc
        exact createLoop_calls_shape env client s.upfN3Address filters hparse _ _ _ c hc

theorem ModifySession_state (client : SimClient) (s : ServerState) (baseID count : Int)
    (nodeB : String) (bufferFlag notifyCPFlag : Bool) (filters : List String) :
    (ModifySession client s baseID count nodeB bufferFlag notifyCPFlag filters).state = s := by
  cases hcs : checkServerStatus s with
  | error e => simp [ModifySession, hcs]
  | ok u =>
    cases u
    simp only [ModifySession, hcs]
    by_cases hlt : (s.activeSessions.card : Int) < count
    · simp [hlt]
    · simp only [hlt, if_false]
      cases hfc : isNumOfAppFiltersCorrect filters <;> simp [hfc]

theorem ModifySession_calls_shape (client : SimClient) (s : ServerState)
    (baseID count : Int) (nodeB : String) (bufferFlag notifyCPFlag : Bool)
    (filters : List String) :
    ∀ c ∈ (ModifySession client s baseID count nodeB bufferFlag notifyCPFlag filters).calls,
      ∃ i, c = modifyCallFor
        (if bufferFlag || notifyCPFlag then ActionNotify ||| ActionBuffer else ActionForward)
        (bufferFlag || notifyCPFlag) nodeB filters i := by
  intro c hc
  cases hcs : checkServerStatus s with
  | error e => simp [ModifySession, hcs] at hc
  | ok u =>
    cases u
    simp only [ModifySession, hcs] at hc
    by_cases hlt : (s.activeSessions.card : Int) < count
    · simp [hlt] at hc
    · simp only [hlt, if_false] at hc
      cases hfc : isNumOfAppFiltersCorrect filters with
      | error e => simp [hfc] at hc
      | ok u2 =>
        cases u2
        simp only [hfc] at hc
        exact modifyLoop_calls_shape client _ _ nodeB filters s.activeSessions _ c hc

theorem DeleteSession_ok_inv (client : SimClient) (s : ServerState) (baseID count : Int)
    (h : (DeleteSession client s baseID count).result = .ok ()) :
    (DeleteSession client s baseID count).state.activeSessions =
      s.activeSessions \ (sessionKeys baseID count).toFinset ∧
    (DeleteSession client s baseID count).calls =
      (sessionKeys baseID count).map .deleteCall := by
  cases hcs : checkServerStatus s with
  | error e => simp [DeleteSession, hcs] at h
  | ok u =>
    cases u
    by_cases hlt : (s.activeSessions.card : Int) < count
    · simp [DeleteSession, hcs, hlt] at h
    · simp only [DeleteSession, hcs, hlt, if_false] at h ⊢
      exact deleteLoop_ok client _ _ h

/- ---------------------------------------------------------------------
Further helper lemmas.
--------------------------------------------------------------------- -/

theorem filterMap_parse_length (env : Env) :
    ∀ (fs : List String), (∀ f ∈ fs, (env.parseAppFilter f).isSome) →
      (fs.filterMap env.parseAppFilter).length = fs.length := by
  intro fs
  induction fs with
  | nil => intro _; rfl
  | cons f fs ih =>
    intro h
    obtain ⟨pf, hpf⟩ := Option.isSome_iff_exists.mp (h f (by simp))
    have hrest : ∀ g ∈ fs, (env.parseAppFilter g).isSome := fun g hg => h g (by simp [hg])
    simp [List.filterMap_cons, hpf, ih hrest]

theorem filterPDRs_head_shape (teid ue : Nat) (n3 : String)
    (pfs : List ParsedFilter) (ID : Nat) :
    ∀ p, (filterPDRs teid ue n3 ID pfs).head? = some p →
      p.id = ID ∧ p.direction = .uplink := by
  intro p hp
  cases pfs with
  | nil => simp [filterPDRs] at hp
  | cons pf pfs =>
    simp only [filterPDRs, List.head?_cons, Option.some_inj] at hp
    subst hp
    exact ⟨rfl, rfl⟩

theorem buildModifyFARs_mem (actions teid : Nat) (nodeB : String) :
    ∀ (fs : List String) (ID : Nat), ∀ far ∈ buildModifyFARs actions teid nodeB ID fs,
      far.action = actions ∧ far.teid = some teid ∧ far.method = .update ∧
        far.dstInterface = .access ∧ far.downlinkIP = some nodeB := by
  intro fs
  induction fs with
  | nil => intro ID far hfar; simp [buildModifyFARs] at hfar
  | cons f fs ih =>
    intro ID far hfar
    simp only [buildModifyFARs, List.mem_cons] at hfar
    rcases hfar with rfl | hfar
    · exact ⟨rfl, rfl, rfl, rfl, rfl⟩
    · exact ih ((ID + 2) % 4294967296) far hfar

theorem ipAfter_mod (ue : Nat) :
    ∀ n : Nat, ipAfter ue (n + 1) = (ue + (n + 1)) % 4294967296 := by
  have key : ∀ (n : Nat) (v : Nat), ipAfter v (n + 1) = (v + (n + 1)) % 4294967296 := by
    intro n
    induction n with
    | zero => intro v; simp [ipAfter, nextIP]
    | succ m ih =>
      intro v
      rw [ipAfter_succ, ih (nextIP v)]
      simp only [nextIP]
      omega
  exact fun n => key n ue

theorem sessionKeys_get (baseID count : Int) (n : Nat) (h : n < count.toNat) :
    (sessionKeys baseID count).get? n = some (baseID + 10 * (n : Int)) := by
  simp only [sessionKeys, SessionStep, List.get?_map, List.get?_range h]
  rfl

theorem createTrace_get (env : Env) (n3 : String) (filters : List String) :
    ∀ (ks : List Int) (ue : Nat) (n : Nat) (k : Int), ks.get? n = some k →
      (createTrace env n3 filters ue ks).get? n =
        some (.establishCall k (sessPDRs env k (ipAfter ue (n + 1)) n3 filters)
          (sessFARs env k filters) [sessionQER]) := by
  intro ks
  induction ks with
  | nil => intro ue n k hk; simp at hk
  | cons i ks ih =>
    intro ue n k hk
    cases n with
    | zero =>
      simp only [List.get?_cons_zero, Option.some_inj] at hk
      subst hk
      simp [createTrace, ipAfter_one]
    | succ m =>
      simp only [List.get?_cons_succ] at hk
      simp only [createTrace, List.get?_cons_succ]
      rw [ih (nextIP ue) m k hk, ipAfter_succ ue (m + 1)]

/- ---------------------------------------------------------------------
Claim theorems.
--------------------------------------------------------------------- -/

/-- Claim C5: every session operation (Disassociate, CreateSession,
ModifySession, DeleteSession) is gated by `checkServerStatus`: when the
server is not configured it fails with the aborted `NotConfigured` error,
and when configured but not associated it fails with the aborted
`NotAssociated` error, in both cases with the state unchanged and no call
issued to the protocol client. -/
theorem sessionOps_gate_on_server_status (env : Env) (client : SimClient)
    (s : ServerState) (baseID count : Int) (pool nodeB : String)
    (bufferFlag notifyCPFlag : Bool) (filters : List String) :
    (s.configured = false → checkServerStatus s = .error .notConfigured) ∧
    (s.configured = true → s.associated = false →
      checkServerStatus s = .error .notAssociated) ∧
    errCode .notConfigured = .aborted ∧
    errCode .notAssociated = .aborted ∧
    (∀ e, checkServerStatus s = .error e →
      Disassociate client s = ⟨.error e, s, []⟩ ∧
      CreateSession env client s baseID count pool filters = ⟨.error e, s, []⟩ ∧
      ModifySession client s baseID count nodeB bufferFlag notifyCPFlag filters =
        ⟨.error e, s, []⟩ ∧
      DeleteSession client s baseID count = ⟨.error e, s, []⟩) := by
  refine ⟨?_, ?_, rfl, rfl, ?_⟩
  · intro h; simp [checkServerStatus, h]
  · intro h1 h2; simp [checkServerStatus, h1, h2]
  · intro e he
    exact ⟨by simp [Disassociate, he], by simp [CreateSession, he],
      by simp [ModifySession, he], by simp [DeleteSession, he]⟩

/-- Witness for C5 at concrete inputs: an unconfigured server rejects
CreateSession with `NotConfigured`; a configured but unassociated server
rejects DeleteSession with `NotAssociated`. -/
theorem sessionOps_gate_on_server_status_witness :
    CreateSession defaultEnv allOkClient ⟨false, false, "", ∅⟩ 1 1 "10.1.0.0/24" [] =
      ⟨.error .notConfigured, ⟨false, false, "", ∅⟩, []⟩ ∧
    DeleteSession allOkClient ⟨true, false, "", ∅⟩ 1 1 =
      ⟨.error .notAssociated, ⟨true, false, "", ∅⟩, []⟩ := by
  have h1 := sessionOps_gate_on_server_status defaultEnv allOkClient
    ⟨false, false, "", ∅⟩ 1 1 "10.1.0.0/24" "" false false []
  have h2 := sessionOps_gate_on_server_status defaultEnv allOkClient
    ⟨true, false, "", ∅⟩ 1 1 "10.1.0.0/24" "" false false []
  exact ⟨(h1.2.2.2.2 .notConfigured (h1.1 rfl)).2.1,
    (h2.2.2.2.2 .notAssociated (h2.2.1 rfl rfl)).2.2.2⟩

/-- Claim C8: ModifySession and DeleteSession called on a ready server with
fewer tracked sessions than `count` fail with the aborted
`NotEnoughSessions` error, leave the state unchanged and issue no call to
the protocol client. -/
theorem modifyDelete_require_enough_sessions (client : SimClient) (s : ServerState)
    (baseID count : Int) (nodeB : String) (bufferFlag notifyCPFlag : Bool)
    (filters : List String)
    (hc : s.configured = true) (ha : s.associated = true)
    (hlt : (s.activeSessions.card : Int) < count) :
    ModifySession client s baseID count nodeB bufferFlag notifyCPFlag filters =
      ⟨.error .notEnoughSessions, s, []⟩ ∧
    DeleteSession client s baseID count = ⟨.error .notEnoughSessions, s, []⟩ ∧
    errCode .notEnoughSessions = .aborted := by
  have hcs : checkServerStatus s = .ok () := by simp [checkServerStatus, hc, ha]
  exact ⟨by simp [ModifySession, hcs, hlt], by simp [DeleteSession, hcs, hlt], rfl⟩

/-- Witness for C8 at a concrete input: a ready server with an empty store
rejects both operations for count 1. -/
theorem modifyDelete_require_enough_sessions_witness :
    ModifySession allOkClient readyState 1 1 "10.2.0.1" false false [] =
      ⟨.error .notEnoughSessions, readyState, []⟩ ∧
    DeleteSession allOkClient readyState 1 1 =
      ⟨.error .notEnoughSessions, readyState, []⟩ := by
  have h := modifyDelete_require_enough_sessions allOkClient readyState 1 1
    "10.2.0.1" false false [] rfl rfl (by decide)
  exact ⟨h.1, h.2.1⟩

/-- Claim C3: the keys a successful CreateSession inserts are exactly
`baseID + 10*n` for `0 ≤ n < count` (the set the new store state is the
union of the old one with), and these keys are pairwise distinct. -/
theorem createSession_inserts_exact_keys (env : Env) (client : SimClient)
    (s : ServerState) (baseID count : Int) (pool : String) (filters : List String) :
    (∀ k : Int, k ∈ sessionKeys baseID count ↔
      ∃ n : Int, 0 ≤ n ∧ n < count ∧ k = baseID + 10 * n) ∧
    (sessionKeys baseID count).Nodup ∧
    ((CreateSession env client s baseID count pool filters).result = .ok () →
      (CreateSession env client s baseID count pool filters).state.activeSessions =
        s.activeSessions ∪ (sessionKeys baseID count).toFinset) := by
  refine ⟨?_, ?_, fun h => (CreateSession_ok_inv env client s baseID count pool filters h).2.2⟩
  · intro k
    simp only [sessionKeys, SessionStep, List.mem_map, List.mem_range]
    constructor
    · rintro ⟨n, hn, rfl⟩
      exact ⟨(n : Int), by omega, by omega, rfl⟩
    · rintro ⟨n, h0, hlt, rfl⟩
      exact ⟨n.toNat, by omega, by omega⟩
  · refine List.Nodup.map ?_ (List.nodup_range count.toNat)
    intro a b hab
    simp only [SessionStep] at hab
    omega

/-- Witness for C3 at a concrete input: the scenario baseID 1, count 2 on a
ready empty server yields store keys exactly the list [1, 11]. -/
theorem createSession_inserts_exact_keys_witness :
    (CreateSession defaultEnv allOkClient readyState 1 2 "10.1.0.0/24" []).state.activeSessions =
      readyState.activeSessions ∪ (sessionKeys 1 2).toFinset ∧
    ((1 : Int) ∈ sessionKeys 1 2 ↔ ∃ n : Int, 0 ≤ n ∧ n < 2 ∧ (1 : Int) = 1 + 10 * n) := by
  have h := createSession_inserts_exact_keys defaultEnv allOkClient readyState 1 2
    "10.1.0.0/24" []
  exact ⟨h.2.2 rfl, h.1 1⟩

/-- Claim C2: for `count ≥ 1`, a successful CreateSession on keys absent
from the store followed by a successful DeleteSession of the same range
leaves the store size unchanged. -/
theorem createThenDelete_roundTrip (env : Env) (client : SimClient) (s : ServerState)
    (baseID count : Int) (pool : String) (filters : List String)
    (hcount : 1 ≤ count)
    (hfresh : ∀ k ∈ sessionKeys baseID count, k ∉ s.activeSessions)
    (hok1 : (CreateSession env client s baseID count pool filters).result = .ok ())
    (hok2 : (DeleteSession client (CreateSession env client s baseID count pool filters).state
      baseID count).result = .ok ()) :
    (DeleteSession client (CreateSession env client s baseID count pool filters).state
      baseID count).state.activeSessions.card = s.activeSessions.card := by
  have h1 := (CreateSession_ok_inv env client s baseID count pool filters hok1).2.2
  have h2 := (DeleteSession_ok_inv client _ baseID count hok2).1
  have hdisj : Disjoint s.activeSessions (sessionKeys baseID count).toFinset :=
    Finset.disjoint_right.mpr (fun a ha => hfresh a (List.mem_toFinset.mp ha))
  rw [h2, h1, Finset.union_sdiff_cancel_right hdisj]

/-- Witness for C2 at a concrete input: the scenario create (baseID 1,
count 2) then delete on a ready empty server returns the store to size 0. -/
theorem createThenDelete_roundTrip_witness :
    (DeleteSession allOkClient
      (CreateSession defaultEnv allOkClient readyState 1 2 "10.1.0.0/24" []).state
      1 2).state.activeSessions.card = readyState.activeSessions.card := by
  exact createThenDelete_roundTrip defaultEnv allOkClient readyState 1 2 "10.1.0.0/24" []
    (by decide) (by decide) rfl rfl

/-- Counterexample to C1 as stated: for a session built with k = 1
application filter, the rule set passed to the establish call carries
exactly 1 QER (the session-level one), not 2k + 1 = 3 — the two
application-scoped QERs are built and then discarded (blank-identifier
assignment, server.go lines 227-243). -/
theorem createSession_appQER_count_cex :
    (CreateSession defaultEnv allOkClient readyState 1 1 "10.1.0.0/24" ["allow"]).calls.map
      callQERCount = [1] ∧ (1 : Nat) ≠ 2 * 1 + 1 := by
  refine ⟨?_, ?_⟩
  · rfl
  · decide

/-- Claim C1 (amended): for every session built by CreateSession with k
application filters (each parsing successfully), the rule set passed to the
protocol client's establish call contains exactly 2k PDRs, exactly 2k FARs
and exactly the one session-level QER (the application-scoped QERs are
built but discarded and never sent), and every PDR's FAR-reference id
equals the id of a FAR present in that same rule set. -/
theorem createSession_ruleSet_shape (env : Env) (client : SimClient) (s : ServerState)
    (baseID count : Int) (pool : String) (filters : List String)
    (hparse : ∀ f ∈ filters, (env.parseAppFilter f).isSome) :
    ∀ c ∈ (CreateSession env client s baseID count pool filters).calls,
      ∃ key pdrs fars qers, c = .establishCall key pdrs fars qers ∧
        pdrs.length = 2 * filters.length ∧
        fars.length = 2 * filters.length ∧
        qers = [sessionQER] ∧
        ∀ p ∈ pdrs, ∃ far ∈ fars, far.id = p.farID := by
  intro c hc
  obtain ⟨key, ue2, rfl⟩ :=
    CreateSession_calls_shape env client s baseID count pool filters hparse c hc
  have hlen := filterMap_parse_length env filters hparse
  refine ⟨key, _, _, _, rfl, ?_, ?_, rfl, ?_⟩
  · simp [sessPDRs, filterPDRs_length, hlen]
  · simp [sessFARs, filterFARs_length, hlen]
  · intro p hp
    simp only [sessPDRs] at hp
    simp only [sessFARs]
    exact filterPDRs_farID_closed _ _ _ _ _ p hp

/-- Witness for C1 (amended) at a concrete input: the rule-set shape of the
one establish call issued for baseID 1, count 1, one filter. -/
theorem createSession_ruleSet_shape_witness :
    ∃ key pdrs fars qers,
      ClientCall.establishCall 1
          (sessPDRs defaultEnv 1 (nextIP 167837696) "10.0.0.2" ["allow"])
          (sessFARs defaultEnv 1 ["allow"]) [sessionQER] =
        .establishCall key pdrs fars qers ∧
      pdrs.length = 2 * (["allow"] : List String).length ∧
      fars.length = 2 * (["allow"] : List String).length ∧
      qers = [sessionQER] ∧
      ∀ p ∈ pdrs, ∃ far ∈ fars, far.id = p.farID := by
  exact createSession_ruleSet_shape defaultEnv allOkClient readyState 1 1 "10.1.0.0/24"
    ["allow"] (by decide)
    (.establishCall 1 (sessPDRs defaultEnv 1 (nextIP 167837696) "10.0.0.2" ["allow"])
      (sessFARs defaultEnv 1 ["allow"]) [sessionQER]) (by decide)

/-- Claim C4: every FAR built by a ModifySession call carries both the
Buffer and the Notify action bits together with TEID 0 when the buffer flag
or the notify-control-plane flag (or both) is set, and carries the Forward
action when neither flag is set. -/
theorem modifySession_action_flags (client : SimClient) (s : ServerState)
    (baseID count : Int) (nodeB : String) (bufferFlag notifyCPFlag : Bool)
    (filters : List String) :
    (∀ (i : Int),
      ∀ far ∈ buildModifyFARs
          (if bufferFlag || notifyCPFlag then ActionNotify ||| ActionBuffer
            else ActionForward)
          (modifyTEID (bufferFlag || notifyCPFlag) i) nodeB (modifyStartID i) filters,
        ((bufferFlag || notifyCPFlag) = true →
          far.action &&& ActionBuffer = ActionBuffer ∧
          far.action &&& ActionNotify = ActionNotify ∧
          far.teid = some 0) ∧
        ((bufferFlag || notifyCPFlag) = false → far.action = ActionForward)) ∧
    (∀ c ∈ (ModifySession client s baseID count nodeB bufferFlag notifyCPFlag filters).calls,
      ∀ key p fars q, c = .modifyCall key p fars q →
        ∀ far ∈ fars,
          ((bufferFlag || notifyCPFlag) = true →
            far.action &&& ActionBuffer = ActionBuffer ∧
            far.action &&& ActionNotify = ActionNotify ∧
            far.teid = some 0) ∧
          ((bufferFlag || notifyCPFlag) = false → far.action = ActionForward)) := by
  have hbuilt : ∀ (i : Int),
      ∀ far ∈ buildModifyFARs
          (if bufferFlag || notifyCPFlag then ActionNotify ||| ActionBuffer
            else ActionForward)
          (modifyTEID (bufferFlag || notifyCPFlag) i) nodeB (modifyStartID i) filters,
        ((bufferFlag || notifyCPFlag) = true →
          far.action &&& ActionBuffer = ActionBuffer ∧
          far.action &&& ActionNotify = ActionNotify ∧
          far.teid = some 0) ∧
        ((bufferFlag || notifyCPFlag) = false → far.action = ActionForward) := by
    intro i far hfar
    have hprops := buildModifyFARs_mem _ _ nodeB filters _ far hfar
    constructor
    · intro hflag
      refine ⟨?_, ?_, ?_⟩
      · rw [hprops.1]; simp only [hflag, if_true]; decide
      · rw [hprops.1]; simp only [hflag, if_true]; decide
      · rw [hprops.2.1]; simp [modifyTEID, hflag]
    · intro hflag
      rw [hprops.1]
      simp [hflag]
  refine ⟨hbuilt, ?_⟩
  intro c hc key p fars q hcall far hfar
  obtain ⟨i, hi⟩ := ModifySession_calls_shape client s baseID count nodeB bufferFlag
    notifyCPFlag filters c hc
  rw [hcall] at hi
  simp only [modifyCallFor, ClientCall.modifyCall.injEq] at hi
  obtain ⟨hik, -, hfars, -⟩ := hi
  subst hfars
  exact hbuilt i far hfar

/-- Witness for C4 at a concrete input: the FAR rebuilt for session key 1
with the buffer flag set carries both bits and TEID 0. -/
theorem modifySession_action_flags_witness :
    (((true : Bool) || false) = true →
      (FAR.mk 2 .update 12 .access (some 0) (some "10.2.0.1")).action &&& ActionBuffer =
          ActionBuffer ∧
        (FAR.mk 2 .update 12 .access (some 0) (some "10.2.0.1")).action &&& ActionNotify =
          ActionNotify ∧
        (FAR.mk 2 .update 12 .access (some 0) (some "10.2.0.1")).teid = some 0) ∧
    (((true : Bool) || false) = false →
      (FAR.mk 2 .update 12 .access (some 0) (some "10.2.0.1")).action = ActionForward) := by
  exact (modifySession_action_flags allOkClient oneSessState 1 1 "10.2.0.1" true false
    ["allow"]).2
    (.modifyCall 1 none [FAR.mk 2 .update 12 .access (some 0) (some "10.2.0.1")] none)
    (by decide) 1 none [FAR.mk 2 .update 12 .access (some 0) (some "10.2.0.1")] none rfl
    (FAR.mk 2 .update 12 .access (some 0) (some "10.2.0.1")) (by decide)

/-- Counterexample to C6 as stated: `net.ParseCIDR` returns the pool
address AS WRITTEN (its first result), not the network address, and
server.go line 126 seeds the UE-address sequence with it.  For pool
"10.1.0.5/24" (network address 10.1.0.0 = 167837696) the first session's
downlink PDR carries UE address 10.1.0.6 (167837702), not the network
address advanced by one (10.1.0.1 = 167837697). -/
theorem createSession_ueAddr_cex :
    parseCIDR "10.1.0.5/24" = some (167837701, 24) ∧
    networkAddress 167837701 24 = 167837696 ∧
    (CreateSession defaultEnv allOkClient readyState 1 1 "10.1.0.5/24" ["allow"]).calls.map
      callPDRUEAddrs = [[none, some 167837702]] ∧
    (167837702 : Nat) ≠ 167837696 + 1 := by
  refine ⟨?_, ?_, ?_, ?_⟩
  · rfl
  · decide
  · rfl
  · decide

/-- Claim C6 (amended): the UE address assigned to the n-th created session
(0-based `n`) is the address written in the pool CIDR advanced by `n + 1`
(`poolIP + n + 1` modulo `2^32`); for a pool written in canonical form the
written address is the network address, recovering the claim.  The n-th
establish call is for key `baseID + 10*n` and every downlink PDR it carries
holds that UE address. -/
theorem createSession_ueAddresses (env : Env) (client : SimClient) (s : ServerState)
    (baseID count : Int) (pool : String) (filters : List String) (poolIP m : Nat)
    (hp : parseCIDR pool = some (poolIP, m))
    (hparse : ∀ f ∈ filters, (env.parseAppFilter f).isSome)
    (hok : (CreateSession env client s baseID count pool filters).result = .ok ())
    (n : Nat) (hn : n < count.toNat) :
    (CreateSession env client s baseID count pool filters).calls.get? n =
      some (.establishCall (baseID + 10 * (n : Int))
        (sessPDRs env (baseID + 10 * (n : Int)) ((poolIP + (n + 1)) % 4294967296)
          s.upfN3Address filters)
        (sessFARs env (baseID + 10 * (n : Int)) filters) [sessionQER]) ∧
    (∀ p ∈ sessPDRs env (baseID + 10 * (n : Int)) ((poolIP + (n + 1)) % 4294967296)
        s.upfN3Address filters,
      p.direction = .downlink → p.ueAddress = some ((poolIP + (n + 1)) % 4294967296)) := by
  have htr := CreateSession_ok_trace env client s baseID count pool filters poolIP m
    hp hparse hok
  have hget := createTrace_get env s.upfN3Address filters (sessionKeys baseID count)
    poolIP n (baseID + 10 * (n : Int)) (sessionKeys_get baseID count n hn)
  rw [ipAfter_mod poolIP n] at hget
  constructor
  · rw [htr]
    exact hget
  · intro p hp2 hdir
    simp only [sessPDRs] at hp2
    exact filterPDRs_downlink_ueAddr _ _ _ _ _ p hp2 hdir

/-- Witness for C6 (amended) at the spec scenario: pool "10.1.0.0/24",
baseID 1, count 2; the second establish call (n = 1) is for key 11 and its
downlink PDR carries UE address 10.1.0.2 (167837698). -/
theorem createSession_ueAddresses_witness :
    (CreateSession defaultEnv allOkClient readyState 1 2 "10.1.0.0/24" ["allow"]).calls.get? 1 =
      some (.establishCall (1 + 10 * ((1 : Nat) : Int))
        (sessPDRs defaultEnv (1 + 10 * ((1 : Nat) : Int)) ((167837696 + (1 + 1)) % 4294967296)
          "10.0.0.2" ["allow"])
        (sessFARs defaultEnv (1 + 10 * ((1 : Nat) : Int)) ["allow"]) [sessionQER]) ∧
    (∀ p ∈ sessPDRs defaultEnv (1 + 10 * ((1 : Nat) : Int))
        ((167837696 + (1 + 1)) % 4294967296) "10.0.0.2" ["allow"],
      p.direction = .downlink → p.ueAddress = some ((167837696 + (1 + 1)) % 4294967296)) := by
  exact createSession_ueAddresses defaultEnv allOkClient readyState 1 2 "10.1.0.0/24"
    ["allow"] 167837696 24 rfl (by decide) rfl 1 (by decide)

/-- Claim C7 evaluated at the failing input (code bug): for session key
65536 with one application filter, CreateSession derives its FAR ids through
a uint16 counter and issues FAR ids {0, 1} (downlink FAR id 1), while
ModifySession recomputes the downlink FAR id as uint32(65536 + 1) = 65537 —
contradicting the source's own comment "Same FARID that was generated in
create sessions" (server.go line 307).  The claim's other part holds:
ModifySession passes nil PDR updates and nil QER updates. -/
theorem modifyFarID_divergence_at_65536 :
    (CreateSession defaultEnv allOkClient readyState 65536 1 "10.1.0.0/24" ["allow"]).calls.map
      callFARIDs = [[0, 1]] ∧
    (ModifySession allOkClient
        (CreateSession defaultEnv allOkClient readyState 65536 1 "10.1.0.0/24" ["allow"]).state
        65536 1 "10.2.0.1" false false ["allow"]).calls.map callFARIDs = [[65537]] ∧
    (65537 : Nat) ∉ ([0, 1] : List Nat) ∧
    (ModifySession allOkClient
        (CreateSession defaultEnv allOkClient readyState 65536 1 "10.1.0.0/24" ["allow"]).state
        65536 1 "10.2.0.1" false false ["allow"]).calls.all modifyUpdatesNil = true := by
  refine ⟨?_, ?_, ?_, ?_⟩
  · rfl
  · rfl
  · decide
  · rfl

/-- Counterexample to C10 as stated: at session key 65536 the uplink TEID is
uint32(65536) = 65536 = the key, but the base of the session's rule-id range
is uint16(65536) = 0 ≠ 65536, so key, TEID and rule-id base are not all "the
same number". -/
theorem sessionKey_teid_idBase_cex :
    (CreateSession defaultEnv allOkClient readyState 65536 1 "10.1.0.0/24" ["allow"]).calls.map
      callPDRTEIDs = [[some 65536, none]] ∧
    (CreateSession defaultEnv allOkClient readyState 65536 1 "10.1.0.0/24" ["allow"]).calls.map
      callPDRIDs = [[0, 1]] ∧
    (0 : Nat) ≠ 65536 := by
  refine ⟨?_, ?_, ?_⟩
  · rfl
  · rfl
  · decide

/-- Claim C10 (amended): in every establish call issued by CreateSession,
every uplink PDR's TEID is the session key cast to 32 bits
(`uint32OfInt key`), the first rule id (the base of the session's rule-id
range, carried by the leading uplink PDR) is the key cast to 16 bits
(`uint16OfInt key`), and for keys in `[0, 2^16)` both casts equal the key
itself, making key, TEID and rule-id base the same number. -/
theorem uplinkTEID_equals_key_cast (env : Env) (client : SimClient) (s : ServerState)
    (baseID count : Int) (pool : String) (filters : List String)
    (hparse : ∀ f ∈ filters, (env.parseAppFilter f).isSome) :
    ∀ c ∈ (CreateSession env client s baseID count pool filters).calls,
      ∀ key pdrs fars qers, c = .establishCall key pdrs fars qers →
        (∀ p ∈ pdrs, p.direction = .uplink → p.teid = some (uint32OfInt key)) ∧
        (∀ p, pdrs.head? = some p → p.id = uint16OfInt key ∧ p.direction = .uplink) ∧
        (0 ≤ key → key < 65536 →
          (uint32OfInt key : Int) = key ∧ (uint16OfInt key : Int) = key) := by
  intro c hc key pdrs fars qers hcall
  obtain ⟨key2, ue2, hshape⟩ :=
    CreateSession_calls_shape env client s baseID count pool filters hparse c hc
  rw [hcall] at hshape
  simp only [ClientCall.establishCall.injEq] at hshape
  obtain ⟨hk, hpd, -, -⟩ := hshape
  subst hk
  subst hpd
  refine ⟨?_, ?_, ?_⟩
  · intro p hp hdir
    simp only [sessPDRs] at hp
    exact filterPDRs_uplink_teid _ _ _ _ _ p hp hdir
  · intro p hp
    simp only [sessPDRs] at hp
    exact filterPDRs_head_shape _ _ _ _ _ p hp
  · intro h0 hlt
    unfold uint32OfInt uint16OfInt
    constructor <;> omega

/-- Witness for C10 (amended) at a concrete input: the establish call for
session key 1 with one filter. -/
theorem uplinkTEID_equals_key_cast_witness :
    (∀ p ∈ sessPDRs defaultEnv 1 (nextIP 167837696) "10.0.0.2" ["allow"],
      p.direction = .uplink → p.teid = some (uint32OfInt 1)) ∧
    (∀ p, (sessPDRs defaultEnv 1 (nextIP 167837696) "10.0.0.2" ["allow"]).head? = some p →
      p.id = uint16OfInt 1 ∧ p.direction = .uplink) ∧
    ((0 : Int) ≤ 1 → (1 : Int) < 65536 →
      (uint32OfInt 1 : Int) = 1 ∧ (uint16OfInt 1 : Int) = 1) := by
  exact uplinkTEID_equals_key_cast defaultEnv allOkClient readyState 1 1 "10.1.0.0/24"
    ["allow"] (by decide)
    (.establishCall 1 (sessPDRs defaultEnv 1 (nextIP 167837696) "10.0.0.2" ["allow"])
      (sessFARs defaultEnv 1 ["allow"]) [sessionQER]) (by decide)
    1 (sessPDRs defaultEnv 1 (nextIP 167837696) "10.0.0.2" ["allow"])
    (sessFARs defaultEnv 1 ["allow"]) [sessionQER] rfl

/-- Claim C9: when an iteration of CreateSession, ModifySession or
DeleteSession fails (a protocol-client error, or a missing session key for
modify/delete), the call returns an error, issues no client calls beyond
the failing iteration, and leaves the session store exactly as produced by
the iterations completed before the failure — earlier iterations are not
rolled back.  The key range is split as `pre ++ k :: post` with the failure
at `k`; the resulting store adds (create) or removes (delete) exactly the
keys of `pre` and the trace covers exactly `pre` plus, where the client was
actually called, `k`. -/
theorem bulkOps_abort_without_rollback (env : Env) (client : SimClient) (s : ServerState)
    (baseID count : Int) (pool nodeB : String) (bufferFlag notifyCPFlag : Bool)
    (filters : List String) (pre : List Int) (k : Int) (post : List Int)
    (hkeys : sessionKeys baseID count = pre ++ k :: post)
    (hc : s.configured = true) (ha : s.associated = true)
    (hparse : ∀ f ∈ filters, (env.parseAppFilter f).isSome)
    (hfcount : filters.length ≤ maxAppFilters) :
    ((∀ j ∈ pre, client.establishOk j = true) → client.establishOk k = false →
      ∀ poolIP m, parseCIDR pool = some (poolIP, m) →
        CreateSession env client s baseID count pool filters =
          ⟨.error .establishFailed,
           { s with activeSessions := s.activeSessions ∪ pre.toFinset },
           createTrace env s.upfN3Address filters poolIP pre ++
             [.establishCall k
                (sessPDRs env k (ipAfter poolIP (pre.length + 1)) s.upfN3Address filters)
                (sessFARs env k filters) [sessionQER]]⟩) ∧
    (¬ (s.activeSessions.card : Int) < count →
      (∀ j ∈ pre, j ∈ s.activeSessions ∧ client.modifyOk j = true) →
      (k ∉ s.activeSessions ∨ client.modifyOk k = false) →
      ∃ e, ModifySession client s baseID count nodeB bufferFlag notifyCPFlag filters =
        ⟨.error e, s,
          if k ∈ s.activeSessions then
            modifyTrace (if bufferFlag || notifyCPFlag then ActionNotify ||| ActionBuffer
              else ActionForward) (bufferFlag || notifyCPFlag) nodeB filters (pre ++ [k])
          else
            modifyTrace (if bufferFlag || notifyCPFlag then ActionNotify ||| ActionBuffer
              else ActionForward) (bufferFlag || notifyCPFlag) nodeB filters pre⟩) ∧
    (¬ (s.activeSessions.card : Int) < count → pre.Nodup → k ∉ pre →
      (∀ j ∈ pre, j ∈ s.activeSessions ∧ client.deleteOk j = true) →
      (k ∉ s.activeSessions ∨ client.deleteOk k = false) →
      ∃ e, DeleteSession client s baseID count =
        ⟨.error e, { s with activeSessions := s.activeSessions \ pre.toFinset },
          if k ∈ s.activeSessions then (pre ++ [k]).map ClientCall.deleteCall
          else pre.map ClientCall.deleteCall⟩) := by
  have hcs : checkServerStatus s = .ok () := by simp [checkServerStatus, hc, ha]
  have hfc : isNumOfAppFiltersCorrect filters = .ok () := by
    simp [isNumOfAppFiltersCorrect, Nat.not_lt.mpr hfcount]
  refine ⟨?_, ?_, ?_⟩
  · intro hpre hk poolIP m hp
    have hsplit := createLoop_split env client s.upfN3Address filters hparse pre k post
      poolIP s.activeSessions hpre hk
    simp only [CreateSession, hcs, hp, hfc, hkeys, hsplit]
  · intro hsize hpre hfail
    obtain ⟨e, he⟩ := modifyLoop_split client
      (if bufferFlag || notifyCPFlag then ActionNotify ||| ActionBuffer else ActionForward)
      (bufferFlag || notifyCPFlag) nodeB filters s.activeSessions pre k post hpre hfail
    refine ⟨e, ?_⟩
    simp only [ModifySession, hcs]
    rw [if_neg hsize]
    simp only [hfc, hkeys, he]
  · intro hsize hnd hkp hpre hfail
    obtain ⟨e, he⟩ := deleteLoop_split client pre k post s.activeSessions hnd hkp hpre hfail
    refine ⟨e, ?_⟩
    simp only [DeleteSession, hcs]
    rw [if_neg hsize]
    simp only [hkeys, he]

/-- Witness for C9 at a concrete input: a client failing every exchange on
key 11, server tracking keys {1, 11}, range baseID 1, count 2 (so the
failure hits the second iteration, after the first completed). -/
theorem bulkOps_abort_without_rollback_witness :
    (CreateSession defaultEnv (failAllAt 11) twoSessState 1 2 "10.1.0.0/24" [] =
      ⟨.error .establishFailed,
       { twoSessState with
          activeSessions := twoSessState.activeSessions ∪ ([1] : List Int).toFinset },
       createTrace defaultEnv twoSessState.upfN3Address [] 167837696 [1] ++
         [.establishCall 11
            (sessPDRs defaultEnv 11 (ipAfter 167837696 (([1] : List Int).length + 1))
              twoSessState.upfN3Address [])
            (sessFARs defaultEnv 11 []) [sessionQER]]⟩) ∧
    (∃ e, ModifySession (failAllAt 11) twoSessState 1 2 "10.2.0.1" false false [] =
      ⟨.error e, twoSessState,
        if (11 : Int) ∈ twoSessState.activeSessions then
          modifyTrace (if (false || false : Bool) then ActionNotify ||| ActionBuffer
            else ActionForward) (false || false) "10.2.0.1" [] ([1] ++ [11])
        else
          modifyTrace (if (false || false : Bool) then ActionNotify ||| ActionBuffer
            else ActionForward) (false || false) "10.2.0.1" [] [1]⟩) ∧
    (∃ e, DeleteSession (failAllAt 11) twoSessState 1 2 =
      ⟨.error e,
       { twoSessState with
          activeSessions := twoSessState.activeSessions \ ([1] : List Int).toFinset },
       if (11 : Int) ∈ twoSessState.activeSessions then
         ([1] ++ [11]).map ClientCall.deleteCall
       else ([1] : List Int).map ClientCall.deleteCall⟩) := by
  have h := bulkOps_abort_without_rollback defaultEnv (failAllAt 11) twoSessState 1 2
    "10.1.0.0/24" "10.2.0.1" false false [] [1] 11 [] (by decide) rfl rfl (by simp)
    (by decide)
  exact ⟨h.1 (by decide) (by decide) 167837696 24 rfl,
    h.2.1 (by decide) (by decide) (Or.inr (by decide)),
    h.2.2 (by decide) (by decide) (by decide) (by decide) (Or.inr (by decide))⟩

end PfcpSim
